import Mathlib

/-!
Verification of the geometry utilities of the vector-drawing application,
element creation / mutation layer, and pointer-interaction state machine.

Numbers: the application computes with JS doubles; we model finite values
as exact rationals (`ℚ`).  The only places where float behaviour matters
to the verified properties are (a) division by zero, which in JS yields a
non-finite value (`Infinity` or `NaN`) — modelled by `Option ℚ` with
`none` standing for any non-finite value — and (b) `toFixed` rounding,
modelled exactly.  Rotation angles enter the geometry only through
`Math.cos`/`Math.sin` of the angle; an angle is therefore represented by
the pair of its cosine and sine (`Angle`), which keeps every definition
executable.
-/

namespace Vacia

/-- An angle, represented by the pair (cos θ, sin θ) of the values through
which it enters every geometric computation in the source. -/
structure Angle where
  cos : ℚ
  sin : ℚ
deriving DecidableEq

/-- The angle 0 (cos 0 = 1, sin 0 = 0). -/
def Angle.zero : Angle := ⟨1, 0⟩

/-- Negation of an angle: cos (-θ) = cos θ, sin (-θ) = -sin θ. -/
def Angle.neg (a : Angle) : Angle := ⟨a.cos, -a.sin⟩

/-- Structure `XYCoords` from `@core/types`. -/
structure XYCoords where
  x : ℚ
  y : ℚ
deriving DecidableEq

/-- Structure `BoundingBox` from `@core/types`: `{x, y, w, h}`. -/
structure BoundingBox where
  x : ℚ
  y : ℚ
  w : ℚ
  h : ℚ
deriving DecidableEq

/-- Structure `RotatedBoundingBox` from `@core/types`: a `BoundingBox` plus `rotate`. -/
structure RotatedBoundingBox where
  x : ℚ
  y : ℚ
  w : ℚ
  h : ℚ
  rotate : Angle
deriving DecidableEq

/-- Function `rotatePointAroundAnchor(x1, y1, x2, y2, angle)` from `utils.ts`:
`x = cos(angle)·(x1-x2) - sin(angle)·(y1-y2) + x2`,
`y = sin(angle)·(x1-x2) + cos(angle)·(y1-y2) + y2`. -/
def rotatePointAroundAnchor (x1 y1 x2 y2 : ℚ) (angle : Angle) : XYCoords :=
  { x := angle.cos * (x1 - x2) - angle.sin * (y1 - y2) + x2
    y := angle.sin * (x1 - x2) + angle.cos * (y1 - y2) + y2 }

/-- Function `getRotatedBoxCoords(box)` from `utils.ts`: the four corners (nw, ne,
sw, se) of the box after rotating it about its own center. -/
def getRotatedBoxCoords (box : RotatedBoundingBox) : List XYCoords :=
  let x1 := box.x
  let x2 := x1 + box.w
  let y1 := box.y
  let y2 := y1 + box.h
  let cx := (x1 + x2) / 2
  let cy := (y1 + y2) / 2
  [ rotatePointAroundAnchor x1 y1 cx cy box.rotate,  -- nw
    rotatePointAroundAnchor x2 y1 cx cy box.rotate,  -- ne
    rotatePointAroundAnchor x1 y2 cx cy box.rotate,  -- sw
    rotatePointAroundAnchor x2 y2 cx cy box.rotate ] -- se

/-- One `Math.min` step of the accumulation loop in
`getSurroundingBoundingBox`; `none` is the initial `Infinity`. -/
def minStep (acc : Option ℚ) (v : ℚ) : Option ℚ :=
  match acc with
  | none => some v
  | some m => some (min m v)

/-- One `Math.max` step of the accumulation loop in
`getSurroundingBoundingBox`; `none` is the initial `-Infinity`. -/
def maxStep (acc : Option ℚ) (v : ℚ) : Option ℚ :=
  match acc with
  | none => some v
  | some m => some (max m v)

/-- Folded `Math.min` over a list, starting from `Infinity` (`none`). -/
def foldMin (l : List ℚ) : Option ℚ := l.foldl minStep none

/-- Folded `Math.max` over a list, starting from `-Infinity` (`none`). -/
def foldMax (l : List ℚ) : Option ℚ := l.foldl maxStep none

/-- Function `getSurroundingBoundingBox(boxes)` from `utils.ts`: `{0,0,0,0,rotate 0}`
for the empty list; the bounds of the box itself (rotation included) for a single
box; otherwise the min/max over the rotated corners of every box, with
`rotate = 0`.  The source initialises the accumulators with `±Infinity`
and takes `Math.min`/`Math.max` over the four corners of each box; the
fold below does the same over the flattened corner list. -/
def getSurroundingBoundingBox (boxes : List RotatedBoundingBox) : RotatedBoundingBox :=
  match boxes with
  | [] => { x := 0, y := 0, w := 0, h := 0, rotate := Angle.zero }
  | [b] => { x := b.x, y := b.y, w := b.w, h := b.h, rotate := b.rotate }
  | _ :: _ :: _ =>
    let corners := boxes.flatMap getRotatedBoxCoords
    let x1 := (foldMin (corners.map XYCoords.x)).getD 0
    let y1 := (foldMin (corners.map XYCoords.y)).getD 0
    let x2 := (foldMax (corners.map XYCoords.x)).getD 0
    let y2 := (foldMax (corners.map XYCoords.y)).getD 0
    { x := x1, y := y1, w := x2 - x1, h := y2 - y1, rotate := Angle.zero }

/-- Result record of `invertNegativeBoundingBox`. -/
structure InvertNegativeResult where
  box : BoundingBox
  didFlipX : Bool
  didFlipY : Bool
deriving DecidableEq

/-- Function `invertNegativeBoundingBox(box)` from `utils.ts`: mirrors the two
mutation blocks of the source (`w *= -1; x -= w` when `w < 0`, and the
same for `h`/`y`). -/
def invertNegativeBoundingBox (b : BoundingBox) : InvertNegativeResult :=
  let w1 := if b.w < 0 then -b.w else b.w
  let x1 := if b.w < 0 then b.x - w1 else b.x
  let h1 := if b.h < 0 then -b.h else b.h
  let y1 := if b.h < 0 then b.y - h1 else b.y
  { box := { x := x1, y := y1, w := w1, h := h1 }
    didFlipX := decide (b.w < 0)
    didFlipY := decide (b.h < 0) }

end Vacia

namespace Vacia

/- Helper lemmas about the `Math.min`/`Math.max` folds. -/

theorem foldl_minStep_some (l : List ℚ) (a : ℚ) :
    l.foldl minStep (some a) = some (l.foldl min a) := by
  induction l generalizing a with
  | nil => rfl
  | cons x xs ih => simpa [minStep] using ih (min a x)

theorem foldl_maxStep_some (l : List ℚ) (a : ℚ) :
    l.foldl maxStep (some a) = some (l.foldl max a) := by
  induction l generalizing a with
  | nil => rfl
  | cons x xs ih => simpa [maxStep] using ih (max a x)

theorem foldl_min_le_init (l : List ℚ) (a : ℚ) : l.foldl min a ≤ a := by
  induction l generalizing a with
  | nil => simp
  | cons x xs ih => exact (ih (min a x)).trans (min_le_left a x)

theorem foldl_min_le_mem (l : List ℚ) (a y : ℚ) (hy : y ∈ l) :
    l.foldl min a ≤ y := by
  induction l generalizing a with
  | nil => cases hy
  | cons x xs ih =>
    rcases List.mem_cons.mp hy with rfl | h
    · exact (foldl_min_le_init xs (min a y)).trans (min_le_right a y)
    · exact ih (min a x) h

theorem foldl_min_eq_or_mem (l : List ℚ) (a : ℚ) :
    l.foldl min a = a ∨ l.foldl min a ∈ l := by
  induction l generalizing a with
  | nil => left; rfl
  | cons x xs ih =>
    rcases ih (min a x) with h | h
    · rcases min_choice a x with hm | hm
      · left; rw [List.foldl_cons, h, hm]
      · right; rw [List.foldl_cons, h, hm]; exact List.mem_cons_self x xs
    · right; exact List.mem_cons_of_mem x h

theorem le_foldl_max_init (l : List ℚ) (a : ℚ) : a ≤ l.foldl max a := by
  induction l generalizing a with
  | nil => simp
  | cons x xs ih => exact (le_max_left a x).trans (ih (max a x))

theorem le_foldl_max_mem (l : List ℚ) (a y : ℚ) (hy : y ∈ l) :
    y ≤ l.foldl max a := by
  induction l generalizing a with
  | nil => cases hy
  | cons x xs ih =>
    rcases List.mem_cons.mp hy with rfl | h
    · exact (le_max_right a y).trans (le_foldl_max_init xs (max a y))
    · exact ih (max a x) h

theorem foldl_max_eq_or_mem (l : List ℚ) (a : ℚ) :
    l.foldl max a = a ∨ l.foldl max a ∈ l := by
  induction l generalizing a with
  | nil => left; rfl
  | cons x xs ih =>
    rcases ih (max a x) with h | h
    · rcases max_choice a x with hm | hm
      · left; rw [List.foldl_cons, h, hm]
      · right; rw [List.foldl_cons, h, hm]; exact List.mem_cons_self x xs
    · right; exact List.mem_cons_of_mem x h

theorem foldMin_cons (a : ℚ) (l : List ℚ) :
    foldMin (a :: l) = some (l.foldl min a) := by
  simp [foldMin, minStep, foldl_minStep_some]

theorem foldMax_cons (a : ℚ) (l : List ℚ) :
    foldMax (a :: l) = some (l.foldl max a) := by
  simp [foldMax, maxStep, foldl_maxStep_some]

/-- The min fold over a nonempty list returns an element of the list that
bounds the whole list from below. -/
theorem foldMin_spec (l : List ℚ) (hl : l ≠ []) :
    ∃ m, foldMin l = some m ∧ m ∈ l ∧ ∀ y ∈ l, m ≤ y := by
  match l, hl with
  | a :: l, _ =>
    refine ⟨l.foldl min a, foldMin_cons a l, ?_, ?_⟩
    · rcases foldl_min_eq_or_mem l a with h | h
      · rw [h]; exact List.mem_cons_self a l
      · exact List.mem_cons_of_mem a h
    · intro y hy
      rcases List.mem_cons.mp hy with rfl | h
      · exact foldl_min_le_init l y
      · exact foldl_min_le_mem l a y h

/-- The max fold over a nonempty list returns an element of the list that
bounds the whole list from above. -/
theorem foldMax_spec (l : List ℚ) (hl : l ≠ []) :
    ∃ m, foldMax l = some m ∧ m ∈ l ∧ ∀ y ∈ l, y ≤ m := by
  match l, hl with
  | a :: l, _ =>
    refine ⟨l.foldl max a, foldMax_cons a l, ?_, ?_⟩
    · rcases foldl_max_eq_or_mem l a with h | h
      · rw [h]; exact List.mem_cons_self a l
      · exact List.mem_cons_of_mem a h
    · intro y hy
      rcases List.mem_cons.mp hy with rfl | h
      · exact le_foldl_max_init l y
      · exact le_foldl_max_mem l a y h

end Vacia

namespace Vacia

theorem getRotatedBoxCoords_ne_nil (b : RotatedBoundingBox) :
    getRotatedBoxCoords b ≠ [] := by
  simp [getRotatedBoxCoords]

theorem getSurroundingBoundingBox_cons₂ (a b : RotatedBoundingBox)
    (rest : List RotatedBoundingBox) :
    getSurroundingBoundingBox (a :: b :: rest) =
      { x := (foldMin (((a :: b :: rest).flatMap getRotatedBoxCoords).map XYCoords.x)).getD 0
        y := (foldMin (((a :: b :: rest).flatMap getRotatedBoxCoords).map XYCoords.y)).getD 0
        w := (foldMax (((a :: b :: rest).flatMap getRotatedBoxCoords).map XYCoords.x)).getD 0
             - (foldMin (((a :: b :: rest).flatMap getRotatedBoxCoords).map XYCoords.x)).getD 0
        h := (foldMax (((a :: b :: rest).flatMap getRotatedBoxCoords).map XYCoords.y)).getD 0
             - (foldMin (((a :: b :: rest).flatMap getRotatedBoxCoords).map XYCoords.y)).getD 0
        rotate := Angle.zero } := rfl

/-- C1: `getSurroundingBoundingBox` returns the zero box (rotation 0) for
the empty list; for a one-element list it returns a box equal to the input
box, including its rotation; for every list of two or more boxes it
returns a box with rotation 0 whose x/y extents are exactly the min/max
over the rotated corners of all input boxes (every corner lies inside the
returned extent and each of the four extremes is attained by some
corner); and on the example inputs {0,0,10,10} and {20,20,10,10} with no
rotation it returns {x:0, y:0, w:30, h:30, rotate:0}. -/
theorem C1_getSurroundingBoundingBox :
    getSurroundingBoundingBox [] = ⟨0, 0, 0, 0, Angle.zero⟩ ∧
    (∀ b : RotatedBoundingBox, getSurroundingBoundingBox [b] = b) ∧
    (∀ boxes : List RotatedBoundingBox, 2 ≤ boxes.length →
      (getSurroundingBoundingBox boxes).rotate = Angle.zero ∧
      (∀ b ∈ boxes, ∀ p ∈ getRotatedBoxCoords b,
        (getSurroundingBoundingBox boxes).x ≤ p.x ∧
        p.x ≤ (getSurroundingBoundingBox boxes).x + (getSurroundingBoundingBox boxes).w ∧
        (getSurroundingBoundingBox boxes).y ≤ p.y ∧
        p.y ≤ (getSurroundingBoundingBox boxes).y + (getSurroundingBoundingBox boxes).h) ∧
      (∃ b ∈ boxes, ∃ p ∈ getRotatedBoxCoords b,
        p.x = (getSurroundingBoundingBox boxes).x) ∧
      (∃ b ∈ boxes, ∃ p ∈ getRotatedBoxCoords b,
        p.x = (getSurroundingBoundingBox boxes).x + (getSurroundingBoundingBox boxes).w) ∧
      (∃ b ∈ boxes, ∃ p ∈ getRotatedBoxCoords b,
        p.y = (getSurroundingBoundingBox boxes).y) ∧
      (∃ b ∈ boxes, ∃ p ∈ getRotatedBoxCoords b,
        p.y = (getSurroundingBoundingBox boxes).y + (getSurroundingBoundingBox boxes).h)) ∧
    getSurroundingBoundingBox
        [⟨0, 0, 10, 10, Angle.zero⟩, ⟨20, 20, 10, 10, Angle.zero⟩] =
      ⟨0, 0, 30, 30, Angle.zero⟩ := by
  refine ⟨rfl, fun b => rfl, ?_, by
    norm_num [getSurroundingBoundingBox, getRotatedBoxCoords, rotatePointAroundAnchor,
      Angle.zero, foldMin, foldMax, minStep, maxStep, min_def, max_def,
      List.flatMap_cons, List.flatMap_nil]⟩
  intro boxes hlen
  match boxes, hlen with
  | a :: b :: rest, _ =>
    have hcne : (a :: b :: rest).flatMap getRotatedBoxCoords ≠ [] := by
      rw [List.flatMap_cons]
      intro h
      exact getRotatedBoxCoords_ne_nil a (List.append_eq_nil.mp h).1
    have hxne : ((a :: b :: rest).flatMap getRotatedBoxCoords).map XYCoords.x ≠ [] := by
      simpa [List.map_eq_nil_iff] using hcne
    have hyne : ((a :: b :: rest).flatMap getRotatedBoxCoords).map XYCoords.y ≠ [] := by
      simpa [List.map_eq_nil_iff] using hcne
    obtain ⟨mx, hmx, hmxmem, hmxle⟩ := foldMin_spec _ hxne
    obtain ⟨Mx, hMx, hMxmem, hMxle⟩ := foldMax_spec _ hxne
    obtain ⟨my, hmy, hmymem, hmyle⟩ := foldMin_spec _ hyne
    obtain ⟨My, hMy, hMymem, hMyle⟩ := foldMax_spec _ hyne
    have hres : getSurroundingBoundingBox (a :: b :: rest) =
        { x := mx, y := my, w := Mx - mx, h := My - my, rotate := Angle.zero } := by
      rw [getSurroundingBoundingBox_cons₂, hmx, hMx, hmy, hMy]
      rfl
    rw [hres]
    obtain ⟨px, hpxc, hpxx⟩ := List.mem_map.mp hmxmem
    obtain ⟨qx, hqxc, hqxx⟩ := List.mem_map.mp hMxmem
    obtain ⟨py, hpyc, hpyy⟩ := List.mem_map.mp hmymem
    obtain ⟨qy, hqyc, hqyy⟩ := List.mem_map.mp hMymem
    obtain ⟨ba, hba, hpxm⟩ := List.mem_flatMap.mp hpxc
    obtain ⟨bb, hbb, hqxm⟩ := List.mem_flatMap.mp hqxc
    obtain ⟨bc, hbc, hpym⟩ := List.mem_flatMap.mp hpyc
    obtain ⟨bd, hbd, hqym⟩ := List.mem_flatMap.mp hqyc
    refine ⟨rfl, ?_, ⟨ba, hba, px, hpxm, hpxx⟩, ⟨bb, hbb, qx, hqxm, by simpa using hqxx⟩,
      ⟨bc, hbc, py, hpym, hpyy⟩, ⟨bd, hbd, qy, hqym, by simpa using hqyy⟩⟩
    intro bx hbx p hp
    have hpc : p ∈ (a :: b :: rest).flatMap getRotatedBoxCoords :=
      List.mem_flatMap.mpr ⟨bx, hbx, hp⟩
    have h1 := hmxle p.x (List.mem_map.mpr ⟨p, hpc, rfl⟩)
    have h2 := hMxle p.x (List.mem_map.mpr ⟨p, hpc, rfl⟩)
    have h3 := hmyle p.y (List.mem_map.mpr ⟨p, hpc, rfl⟩)
    have h4 := hMyle p.y (List.mem_map.mpr ⟨p, hpc, rfl⟩)
    exact ⟨h1, by simpa using h2, h3, by simpa using h4⟩

/-- Witness for C1: the two-or-more-boxes clause applied to the concrete
two-element list from the example in the spec. -/
theorem C1_witness :
    (2 ≤ ([⟨0, 0, 10, 10, Angle.zero⟩, ⟨20, 20, 10, 10, Angle.zero⟩] :
        List RotatedBoundingBox).length) ∧
    (getSurroundingBoundingBox
        [⟨0, 0, 10, 10, Angle.zero⟩, ⟨20, 20, 10, 10, Angle.zero⟩]).rotate = Angle.zero :=
  ⟨by decide,
    (C1_getSurroundingBoundingBox.2.2.1
      [⟨0, 0, 10, 10, Angle.zero⟩, ⟨20, 20, 10, 10, Angle.zero⟩] (by decide)).1⟩

/-- C2: for every bounding box with a negative width or height,
`invertNegativeBoundingBox` returns a box with non-negative extents that
covers the same region (x = b.x + min(b.w, 0), y = b.y + min(b.h, 0),
w = |b.w|, h = |b.h|), and the didFlipX/didFlipY flags are true exactly
for the axes whose extent was negative. -/
theorem C2_invertNegativeBoundingBox (b : BoundingBox) (_h : b.w < 0 ∨ b.h < 0) :
    0 ≤ (invertNegativeBoundingBox b).box.w ∧
    0 ≤ (invertNegativeBoundingBox b).box.h ∧
    (invertNegativeBoundingBox b).box.x = b.x + min b.w 0 ∧
    (invertNegativeBoundingBox b).box.y = b.y + min b.h 0 ∧
    (invertNegativeBoundingBox b).box.w = |b.w| ∧
    (invertNegativeBoundingBox b).box.h = |b.h| ∧
    ((invertNegativeBoundingBox b).didFlipX = true ↔ b.w < 0) ∧
    ((invertNegativeBoundingBox b).didFlipY = true ↔ b.h < 0) := by
  clear _h
  rcases lt_or_le b.w 0 with hw | hw <;> rcases lt_or_le b.h 0 with hh | hh
  · simp [invertNegativeBoundingBox, hw, hh, abs_of_neg hw, abs_of_neg hh,
      min_eq_left hw.le, min_eq_left hh.le, hw.le, hh.le]
  · simp [invertNegativeBoundingBox, hw, not_lt.mpr hh, abs_of_neg hw,
      abs_of_nonneg hh, min_eq_left hw.le, min_eq_right hh, hw.le, hh]
  · simp [invertNegativeBoundingBox, not_lt.mpr hw, hh, abs_of_nonneg hw,
      abs_of_neg hh, min_eq_right hw, min_eq_left hh.le, hw, hh.le]
  · simp [invertNegativeBoundingBox, not_lt.mpr hw, not_lt.mpr hh,
      abs_of_nonneg hw, abs_of_nonneg hh, min_eq_right hw, min_eq_right hh, hw, hh]

/-- Witness for C2: the hypothesis and the position/flag clauses at the
concrete box {x:150, y:140, w:-50, h:-40}. -/
theorem C2_witness :
    ((⟨150, 140, -50, -40⟩ : BoundingBox).w < 0 ∨
      (⟨150, 140, -50, -40⟩ : BoundingBox).h < 0) ∧
    (invertNegativeBoundingBox ⟨150, 140, -50, -40⟩).box.x =
      (⟨150, 140, -50, -40⟩ : BoundingBox).x + min (⟨150, 140, -50, -40⟩ : BoundingBox).w 0 :=
  ⟨Or.inl (by norm_num),
    (C2_invertNegativeBoundingBox ⟨150, 140, -50, -40⟩ (Or.inl (by norm_num))).2.2.1⟩

end Vacia

namespace Vacia

/-- Function `assignWithoutUndefined(target, source)` from `utils.ts`.  JS objects
are modelled as partial maps `K → Option V` (`none` = the key is absent
or holds `undefined`).  The source loop iterates over `Object.keys(source)`
(here: any list `sourceKeys` containing every key at which `source` is
defined) and copies `source[key]` into `target[key]` unless that value is
`undefined`. -/
def assignWithoutUndefined {K V : Type} [DecidableEq K]
    (target : K → Option V) (sourceKeys : List K) (source : K → Option V) :
    K → Option V :=
  sourceKeys.foldl
    (fun t key =>
      match source key with
      | some v => fun k => if k = key then some v else t k
      | none => t)
    target

theorem assignWithoutUndefined_cons {K V : Type} [DecidableEq K]
    (target : K → Option V) (a : K) (as : List K) (source : K → Option V) :
    assignWithoutUndefined target (a :: as) source =
      assignWithoutUndefined
        (match source a with
         | some v => fun k => if k = a then some v else target k
         | none => target)
        as source := rfl

theorem assignWithoutUndefined_of_none {K V : Type} [DecidableEq K]
    (target : K → Option V) (sourceKeys : List K) (source : K → Option V)
    (k : K) (hk : source k = none) :
    assignWithoutUndefined target sourceKeys source k = target k := by
  induction sourceKeys generalizing target with
  | nil => rfl
  | cons a as ih =>
    rw [assignWithoutUndefined_cons]
    rcases hsa : source a with _ | v
    · exact ih target
    · have hka : k ≠ a := by
        intro h
        rw [h, hsa] at hk
        cases hk
      refine (ih (fun k' => if k' = a then some v else target k')).trans ?_
      simp [hka]

theorem assignWithoutUndefined_not_mem {K V : Type} [DecidableEq K]
    (target : K → Option V) (sourceKeys : List K) (source : K → Option V)
    (k : K) (hk : k ∉ sourceKeys) :
    assignWithoutUndefined target sourceKeys source k = target k := by
  induction sourceKeys generalizing target with
  | nil => rfl
  | cons a as ih =>
    have hka : k ≠ a := fun h => hk (h ▸ List.mem_cons_self a as)
    have hkas : k ∉ as := fun h => hk (List.mem_cons_of_mem a h)
    rw [assignWithoutUndefined_cons]
    rcases hsa : source a with _ | v
    · exact ih target hkas
    · refine (ih (fun k' => if k' = a then some v else target k') hkas).trans ?_
      simp [hka]

theorem assignWithoutUndefined_of_some {K V : Type} [DecidableEq K]
    (target : K → Option V) (sourceKeys : List K) (source : K → Option V)
    (k : K) (v : V) (hv : source k = some v) (hk : k ∈ sourceKeys) :
    assignWithoutUndefined target sourceKeys source k = some v := by
  induction sourceKeys generalizing target with
  | nil => cases hk
  | cons a as ih =>
    rw [assignWithoutUndefined_cons]
    by_cases hkas : k ∈ as
    · rcases hsa : source a with _ | w
      · exact ih target hkas
      · exact ih (fun k' => if k' = a then some w else target k') hkas
    · have hka : k = a := by
        rcases List.mem_cons.mp hk with h | h
        · exact h
        · exact absurd h hkas
      subst hka
      rw [hv]
      refine (assignWithoutUndefined_not_mem
        (fun k' => if k' = k then some v else target k') as source k hkas).trans ?_
      simp

/-- C8: after `assignWithoutUndefined(target, patch)`, every key whose
patch value is `undefined` or which is absent from the patch keeps its
previous value, and every key with a defined patch value holds that patch
value; keys outside the patch are untouched.  `sourceKeys` is the
`Object.keys` enumeration of the patch, so it contains every key at which
the patch is defined. -/
theorem C8_assignWithoutUndefined {K V : Type} [DecidableEq K]
    (target : K → Option V) (sourceKeys : List K) (source : K → Option V)
    (hkeys : ∀ j, source j ≠ none → j ∈ sourceKeys) (k : K) :
    assignWithoutUndefined target sourceKeys source k =
      match source k with
      | some v => some v
      | none => target k := by
  rcases hk : source k with _ | v
  · simpa using assignWithoutUndefined_of_none target sourceKeys source k hk
  · have hmem : k ∈ sourceKeys := hkeys k (by rw [hk]; exact fun h => by cases h)
    simpa using assignWithoutUndefined_of_some target sourceKeys source k v hk hmem

/-- Witness for C8: a concrete target and patch over `Bool` keys; the key
`true` is patched to 1, the key `false` carries `undefined` and keeps its
old value. -/
theorem C8_witness :
    (∀ j : Bool, (if j then some 1 else none : Option ℕ) ≠ none → j ∈ [true]) ∧
    assignWithoutUndefined (fun _ => some 0) [true]
      (fun j => if j then some 1 else none) true = some 1 :=
  ⟨by decide,
    C8_assignWithoutUndefined (fun _ => some (0 : ℕ)) [true]
      (fun j => if j then some 1 else none) (by decide) true⟩

end Vacia

namespace Vacia

/-- JS division of finite doubles: the result is non-finite (`Infinity`
or `NaN`, modelled as `none`) exactly when the denominator is 0. -/
def jsDiv (a b : ℚ) : Option ℚ := if b = 0 then none else some (a / b)

/-- JS addition where either operand may be non-finite: here both
operands are non-negative when finite, so a non-finite operand makes the
sum non-finite (`Infinity + x = Infinity`, `NaN + x = NaN`). -/
def jsAdd (a b : Option ℚ) : Option ℚ :=
  match a, b with
  | some x, some y => some (x + y)
  | _, _ => none

/-- JS `<=` against a finite number: `Infinity <= c` and `NaN <= c` are
both false, so a non-finite left operand yields `false`. -/
def jsLe (a : Option ℚ) (c : ℚ) : Bool :=
  match a with
  | some x => decide (x ≤ c)
  | none => false

/-- The geometric fields of an ellipse element that `EllipseHandler.hitTest`
reads (`x, y, w, h, rotate`). -/
structure EllipseElement where
  x : ℚ
  y : ℚ
  w : ℚ
  h : ℚ
  rotate : Angle
deriving DecidableEq

/-- Method `EllipseHandler.hitTest(element, coords)` from `ellipse.ts`:
`rX = w/2`, `rY = h/2`, `cX = x + w/2`, `cY = y + h/2`; the pointer is
rotated by `-rotate` around the center, and the ellipse equation value
`(dx² / rX²) + (dy² / rY²)` is compared against 1.  The divisions and the
comparison use the JS semantics above, so a zero radius makes the value
non-finite and the comparison false. -/
def ellipseHitTest (element : EllipseElement) (coords : XYCoords) : Bool :=
  let rX := element.w / 2
  let rY := element.h / 2
  let cX := element.x + element.w / 2
  let cY := element.y + element.h / 2
  let rotatedCoords := rotatePointAroundAnchor coords.x coords.y cX cY element.rotate.neg
  let value := jsAdd (jsDiv ((rotatedCoords.x - cX) ^ 2) (rX ^ 2))
                     (jsDiv ((rotatedCoords.y - cY) ^ 2) (rY ^ 2))
  jsLe value 1

/-- C10: the function `ellipseHitTest` is true at the center
`(x + w/2, y + h/2)` for every ellipse with positive width and height and
every rotation angle; and for every ellipse with zero width or zero
height the ellipse-equation value is non-finite, so the test is false at
every coordinate. -/
theorem C10_ellipseHitTest (e : EllipseElement) :
    (0 < e.w → 0 < e.h →
      ellipseHitTest e ⟨e.x + e.w / 2, e.y + e.h / 2⟩ = true) ∧
    (e.w = 0 ∨ e.h = 0 → ∀ coords : XYCoords, ellipseHitTest e coords = false) := by
  constructor
  · intro hw hh
    have hrX : e.w / 2 ≠ 0 := by positivity
    have hrY : e.h / 2 ≠ 0 := by positivity
    have hc : rotatePointAroundAnchor (e.x + e.w / 2) (e.y + e.h / 2)
        (e.x + e.w / 2) (e.y + e.h / 2) e.rotate.neg =
        ⟨e.x + e.w / 2, e.y + e.h / 2⟩ := by
      simp [rotatePointAroundAnchor]
    simp [ellipseHitTest, hc, jsDiv, jsAdd, jsLe, pow_eq_zero_iff, hrX, hrY]
  · intro hwh coords
    rcases hwh with hw | hh
    · simp [ellipseHitTest, jsDiv, jsAdd, jsLe, hw]
    · simp [ellipseHitTest, jsDiv, jsAdd, jsLe, hh]

/-- Witness for C10: both clauses at concrete ellipses — the center of
the ellipse {x:0, y:0, w:10, h:6} (rotated by the angle with cosine 3/5
and sine 4/5) is hit, and the degenerate ellipse {x:0, y:0, w:0, h:6} is
not hit at its own center. -/
theorem C10_witness :
    ((0 : ℚ) < 10 ∧ (0 : ℚ) < 6 ∧
      ellipseHitTest ⟨0, 0, 10, 6, ⟨3/5, 4/5⟩⟩ ⟨0 + 10 / 2, 0 + 6 / 2⟩ = true) ∧
    (((0 : ℚ) = 0 ∨ (6 : ℚ) = 0) ∧
      ellipseHitTest ⟨0, 0, 0, 6, ⟨3/5, 4/5⟩⟩ ⟨0, 3⟩ = false) :=
  ⟨⟨by norm_num, by norm_num,
      (C10_ellipseHitTest ⟨0, 0, 10, 6, ⟨3/5, 4/5⟩⟩).1 (by norm_num) (by norm_num)⟩,
    ⟨Or.inl rfl,
      (C10_ellipseHitTest ⟨0, 0, 0, 6, ⟨3/5, 4/5⟩⟩).2 (Or.inl rfl) ⟨0, 3⟩⟩⟩

end Vacia

namespace Vacia

/-- Snapping step `Math.round(angle / threshold) * threshold` from `onElementRotate`.
`Math.round` rounds to the nearest integer with ties toward `+∞`, which
is the Mathlib function `round`.  Generic over the field so that the definition
stays executable; the application instantiates `threshold` with
`ROTATION_SNAP_THRESHOLD = π/12`. -/
def snapAngle {α : Type} [LinearOrderedField α] [FloorRing α]
    (threshold angle : α) : α :=
  (round (angle / threshold) : ℤ) * threshold

/-- The angle `onElementRotate` passes to `getRotateMutations` for every
transforming element: the raw angle as computed from the pointer when the
ctrl key is held, otherwise the raw angle snapped to the rotation
threshold. -/
def onElementRotateAngle {α : Type} [LinearOrderedField α] [FloorRing α]
    (threshold : α) (ctrlKey : Bool) (rawAngle : α) : α :=
  if ctrlKey then rawAngle else snapAngle threshold rawAngle

/-- C7: with the ctrl key not held, the angle applied to every
transforming element is the nearest integer multiple of
`ROTATION_SNAP_THRESHOLD = π/12` to the raw pointer angle: it is an exact
multiple of `π/12`, differs from the raw angle by at most `π/24`, and no
integer multiple of `π/12` is closer. -/
theorem C7_rotationSnap (rawAngle : ℝ) :
    (∃ k : ℤ, onElementRotateAngle (Real.pi / 12) false rawAngle =
      k * (Real.pi / 12)) ∧
    |onElementRotateAngle (Real.pi / 12) false rawAngle - rawAngle| ≤ Real.pi / 24 ∧
    (∀ k : ℤ, |rawAngle - onElementRotateAngle (Real.pi / 12) false rawAngle| ≤
      |rawAngle - k * (Real.pi / 12)|) := by
  have hT : (0 : ℝ) < Real.pi / 12 := by positivity
  set T : ℝ := Real.pi / 12 with hTdef
  have hsnap : onElementRotateAngle T false rawAngle =
      (round (rawAngle / T) : ℤ) * T := rfl
  refine ⟨⟨round (rawAngle / T), hsnap⟩, ?_, ?_⟩
  · rw [hsnap]
    have h1 : |rawAngle / T - round (rawAngle / T)| ≤ 1 / 2 :=
      abs_sub_round (rawAngle / T)
    have heq : (round (rawAngle / T) : ℝ) * T - rawAngle =
        -((rawAngle / T - round (rawAngle / T)) * T) := by
      field_simp
      ring
    rw [heq, abs_neg, abs_mul, abs_of_pos hT]
    calc |rawAngle / T - round (rawAngle / T)| * T ≤ 1 / 2 * T :=
          mul_le_mul_of_nonneg_right h1 hT.le
      _ = Real.pi / 24 := by rw [hTdef]; ring
  · intro k
    rw [hsnap]
    have h1 : |rawAngle / T - round (rawAngle / T)| ≤ |rawAngle / T - k| :=
      round_le (rawAngle / T) k
    have h2 : rawAngle - (round (rawAngle / T) : ℝ) * T =
        (rawAngle / T - round (rawAngle / T)) * T := by
      field_simp
      ring
    have h3 : rawAngle - (k : ℝ) * T = (rawAngle / T - k) * T := by
      field_simp
      ring
    rw [h2, h3, abs_mul, abs_mul]
    exact mul_le_mul_of_nonneg_right h1 (abs_nonneg T)

end Vacia

namespace Vacia

/-- Modelled from the spec: `rescalePath` (in `@core/elements/transform`,
not under `src/`) rescales every path point by the per-axis factors
relative to the given origin ("a freehand path [[0,0],[5,0],[5,5]]
rescaled by (scaleX=2, scaleY=1) around origin (0,0) becomes
[[0,0],[10,0],[10,5]]"). -/
def rescalePath (path : List (ℚ × ℚ)) (scaleX scaleY originX originY : ℚ) :
    List (ℚ × ℚ) :=
  path.map (fun p => (originX + (p.1 - originX) * scaleX,
                      originY + (p.2 - originY) * scaleY))

/-- The fields of a `CanvasElementMutations` patch that the freedraw
branch of `onDesignMenuUpdate` reads and writes (`none` = the field is
absent from the patch). -/
structure DesignMutations where
  w : Option ℚ
  h : Option ℚ
  path : Option (List (ℚ × ℚ))
deriving DecidableEq

/-- The geometry of a freedraw element as read by `onDesignMenuUpdate`. -/
structure FreedrawGeometry where
  w : ℚ
  h : ℚ
  path : List (ℚ × ℚ)
deriving DecidableEq

/-- Computation `let scaleX = (mutations.w ?? element.w) / element.w` followed by
`if (!Number.isFinite(scaleX)) scaleX = 1`: the JS quotient of finite
values is non-finite exactly when the denominator is 0, in which case the
factor defaults to 1. -/
def resolveScale (requested : Option ℚ) (current : ℚ) : ℚ :=
  match jsDiv (requested.getD current) current with
  | some v => v
  | none => 1

/-- The freedraw branch of `onDesignMenuUpdate` from `App.tsx`: computes
the per-axis scale factors, replaces non-finite factors by 1, and sets
`mutations.path` to the rescaled path only when some factor differs
from 1. -/
def onDesignMenuUpdateFreedraw (element : FreedrawGeometry)
    (mutations : DesignMutations) : DesignMutations :=
  let scaleX := resolveScale mutations.w element.w
  let scaleY := resolveScale mutations.h element.h
  if scaleX ≠ 1 ∨ scaleY ≠ 1 then
    { mutations with path := some (rescalePath element.path scaleX scaleY 0 0) }
  else mutations

/-- C6: in `onDesignMenuUpdate`, a freedraw element with zero width
(resp. height) makes the per-axis scale factor `(mutations.w ??
element.w) / element.w` non-finite, and it is replaced by 1; when both
replaced factors are 1 the `path` field of the patch is left exactly as it
was, so a degenerate division never produces a path mutation. -/
theorem C6_onDesignMenuUpdateFreedraw (element : FreedrawGeometry)
    (mutations : DesignMutations) :
    (element.w = 0 →
      jsDiv (mutations.w.getD element.w) element.w = none ∧
      resolveScale mutations.w element.w = 1) ∧
    (element.h = 0 →
      jsDiv (mutations.h.getD element.h) element.h = none ∧
      resolveScale mutations.h element.h = 1) ∧
    (resolveScale mutations.w element.w = 1 →
      resolveScale mutations.h element.h = 1 →
      (onDesignMenuUpdateFreedraw element mutations).path = mutations.path) := by
  refine ⟨?_, ?_, ?_⟩
  · intro hw
    constructor
    · simp [jsDiv, hw]
    · simp [resolveScale, jsDiv, hw]
  · intro hh
    constructor
    · simp [jsDiv, hh]
    · simp [resolveScale, jsDiv, hh]
  · intro hx hy
    simp [onDesignMenuUpdateFreedraw, hx, hy]

/-- Witness for C6: a freedraw element with `w = h = 0` and a patch that
requests `w = 25`: both factors resolve to 1 and the (absent)
path field stays absent. -/
theorem C6_witness :
    ((⟨0, 0, [(0, 0), (5, 5)]⟩ : FreedrawGeometry).w = 0) ∧
    resolveScale (some 25) (⟨0, 0, [(0, 0), (5, 5)]⟩ : FreedrawGeometry).w = 1 ∧
    (onDesignMenuUpdateFreedraw ⟨0, 0, [(0, 0), (5, 5)]⟩
      ⟨some 25, none, none⟩).path = none :=
  ⟨rfl,
    ((C6_onDesignMenuUpdateFreedraw ⟨0, 0, [(0, 0), (5, 5)]⟩
      ⟨some 25, none, none⟩).1 rfl).2,
    (C6_onDesignMenuUpdateFreedraw ⟨0, 0, [(0, 0), (5, 5)]⟩
      ⟨some 25, none, none⟩).2.2
      (((C6_onDesignMenuUpdateFreedraw ⟨0, 0, [(0, 0), (5, 5)]⟩
        ⟨some 25, none, none⟩).1 rfl).2)
      (((C6_onDesignMenuUpdateFreedraw ⟨0, 0, [(0, 0), (5, 5)]⟩
        ⟨some 25, none, none⟩).2.1 rfl).2)⟩

end Vacia

namespace Vacia

/-- The viewport-relevant part of `AppState`: zoom factor, scroll/pan
offset and grid configuration. -/
structure ViewportState where
  zoom : ℚ
  scrollX : ℚ
  scrollY : ℚ
  gridSnapEnabled : Bool
  gridSize : ℚ
deriving DecidableEq

/-- Modelled from the spec: `screenOffsetToVirtualOffset(p, state)` (in
`@core/viewport`, not under `src/`): `virtual = (screen - panOffset) /
zoom`. -/
def screenOffsetToVirtualOffset (p : ℚ × ℚ) (s : ViewportState) : ℚ × ℚ :=
  ((p.1 - s.scrollX) / s.zoom, (p.2 - s.scrollY) / s.zoom)

/-- Modelled from the spec: `snapVirtualCoordsToGrid(p, state)` (in
`@core/viewport`, not under `src/`): rounds each coordinate to the
nearest multiple of the grid size; no-op when grid snapping is
disabled. -/
def snapVirtualCoordsToGrid (p : ℚ × ℚ) (s : ViewportState) : ℚ × ℚ :=
  if s.gridSnapEnabled then
    (((round (p.1 / s.gridSize) : ℤ) : ℚ) * s.gridSize,
     ((round (p.2 / s.gridSize) : ℤ) : ℚ) * s.gridSize)
  else p

/-- The mutation the shape branch of `onElementCreation` applies to the
element being created. -/
structure ShapeCreationMutations where
  x : ℚ
  y : ℚ
  w : ℚ
  h : ℚ
  flippedX : Bool
  flippedY : Bool
deriving DecidableEq

/-- The shape branch of `onElementCreation` from `App.tsx`: builds the
box from the pointer origin (converted to virtual space) and the drag
offset divided by the zoom, optionally snaps the position
(`!pointer.ctrlKey`) and the size (`!e.ctrlKey`, with the grid size as
fallback when a snapped extent collapses to 0 — JS `|| fallbackSize`),
normalizes it through `invertNegativeBoundingBox`, and records the flip
flags. -/
def onElementCreationShape (pointerCtrlKey eventCtrlKey : Bool)
    (pointerOrigin dragOffset : ℚ × ℚ) (s : ViewportState) :
    ShapeCreationMutations :=
  let v := screenOffsetToVirtualOffset pointerOrigin s
  let box0 : BoundingBox :=
    { x := v.1, y := v.2, w := dragOffset.1 / s.zoom, h := dragOffset.2 / s.zoom }
  let box1 :=
    if pointerCtrlKey = false then
      let pos := snapVirtualCoordsToGrid (box0.x, box0.y) s
      { box0 with x := pos.1, y := pos.2 }
    else box0
  let box2 :=
    if eventCtrlKey = false then
      let fallbackSize := s.gridSize
      let sizeCoords := snapVirtualCoordsToGrid (box1.x + box1.w, box1.y + box1.h) s
      let w1 := if sizeCoords.1 - box1.x = 0 then fallbackSize else sizeCoords.1 - box1.x
      let h1 := if sizeCoords.2 - box1.y = 0 then fallbackSize else sizeCoords.2 - box1.y
      { box1 with w := w1, h := h1 }
    else box1
  let normalizedBox := invertNegativeBoundingBox box2
  { x := normalizedBox.box.x, y := normalizedBox.box.y,
    w := normalizedBox.box.w, h := normalizedBox.box.h,
    flippedX := normalizedBox.didFlipX, flippedY := normalizedBox.didFlipY }

/-- C3: with grid snapping disabled (zoom 1, no pan), a creation drag
from virtual (100,100) to (150,140) leaves the box x=100, y=100, w=50,
h=40 with both flip flags false; the reverse drag from (150,140) to
(100,100) leaves the identical box with both flip flags true. -/
theorem C3_shapeCreationScenarios :
    onElementCreationShape false false (100, 100) (50, 40)
        ⟨1, 0, 0, false, 20⟩ =
      ⟨100, 100, 50, 40, false, false⟩ ∧
    onElementCreationShape false false (150, 140) (-50, -40)
        ⟨1, 0, 0, false, 20⟩ =
      ⟨100, 100, 50, 40, true, true⟩ := by
  constructor <;>
    norm_num [onElementCreationShape, screenOffsetToVirtualOffset,
      snapVirtualCoordsToGrid, invertNegativeBoundingBox]

end Vacia

namespace Vacia

/-- JS `+value.toFixed(2)` with `ELEMENT_PRECISION = 2`: rounds to two
decimal places, ties away from zero (ECMA rounds the absolute value and
re-applies the sign). -/
def toFixed2 (q : ℚ) : ℚ :=
  if q < 0 then -(((round (-q * 100) : ℤ) : ℚ) / 100)
  else ((round (q * 100) : ℤ) : ℚ) / 100

/-- The geometry and path of a freedraw element as read and written by
the freedraw branch of `onElementCreation`. -/
structure FreedrawElement where
  x : ℚ
  y : ℚ
  w : ℚ
  h : ℚ
  path : List (ℚ × ℚ)
deriving DecidableEq

/-- Modelled from the spec: `createFreedrawElement` (in `@core/elements`,
not under `src/`) stores the supplied geometry and path; the `Freedraw`
case of `createElementFromTool` calls it with `path = [[0, 0]]`, the
unsnapped pointer position and `w = h = 0`. -/
def createFreedrawFromTool (position : ℚ × ℚ) : FreedrawElement :=
  { x := position.1, y := position.2, w := 0, h := 0, path := [(0, 0)] }

/-- The freedraw branch of `onElementCreation` from `App.tsx`: `point` is
the current pointer position in virtual space.  The origin moves left/up
by `dx = max(x - point.x, 0)`, `dy = max(y - point.y, 0)`; the new point
is appended relative to the new origin; and when `dx || dy` every path
point (the just-appended one included) is shifted by `(dx, dy)` and
re-rounded. -/
def onElementCreationFreedraw (element : FreedrawElement) (point : ℚ × ℚ) :
    FreedrawElement :=
  let dx := max (element.x - point.1) 0
  let dy := max (element.y - point.2) 0
  let x1 := element.x - dx
  let y1 := element.y - dy
  let w1 := max element.w (point.1 - x1) + dx
  let h1 := max element.h (point.2 - y1) + dy
  let path1 := element.path ++ [(toFixed2 (point.1 - x1), toFixed2 (point.2 - y1))]
  let path2 :=
    if dx ≠ 0 ∨ dy ≠ 0 then
      path1.map (fun p => (toFixed2 (p.1 + dx), toFixed2 (p.2 + dy)))
    else path1
  { x := x1, y := y1, w := w1, h := h1, path := path2 }

/-- Counterexample to C4: a freedraw element just created at (100,100)
(path `[[0,0]]`) dragged one step left to virtual (90,100) ends with
first path point `[10, 0]`, not `[0, 0]` — the `dx || dy` shift in the
freedraw creation step moves every stored point, the first included. -/
theorem C4_counterexample :
    ¬ ((onElementCreationFreedraw ⟨100, 100, 0, 0, [(0, 0)]⟩
        (90, 100)).path.head? = some (0, 0)) := by
  have h : (onElementCreationFreedraw ⟨100, 100, 0, 0, [(0, 0)]⟩
      (90, 100)).path.head? = some (10, 0) := by
    norm_num [onElementCreationFreedraw, toFixed2]
  rw [h]
  simp

/-- C4 (amended): every freedraw element is created with path `[[0,0]]`,
and a creation-drag step preserves the first path point whenever the
pointer stays at or to the right of and at or below the origin of the element
(so the origin does not move); a step that drags up or left of the origin
instead shifts every stored point (the first included) by the origin
displacement. -/
theorem C4_freedrawFirstPoint :
    (∀ position : ℚ × ℚ, (createFreedrawFromTool position).path = [(0, 0)]) ∧
    (∀ (element : FreedrawElement) (point : ℚ × ℚ) (q : ℚ × ℚ),
      element.x ≤ point.1 → element.y ≤ point.2 →
      element.path.head? = some q →
      (onElementCreationFreedraw element point).path.head? = some q) := by
  constructor
  · intro position
    rfl
  · intro element point q hx hy hq
    have hdx : max (element.x - point.1) 0 = 0 :=
      max_eq_right (by linarith)
    have hdy : max (element.y - point.2) 0 = 0 :=
      max_eq_right (by linarith)
    have hpath : (onElementCreationFreedraw element point).path =
        element.path ++
          [(toFixed2 (point.1 - (element.x - 0)), toFixed2 (point.2 - (element.y - 0)))] := by
      simp only [onElementCreationFreedraw, hdx, hdy]
      simp
    have hne : element.path ≠ [] := by
      intro h0
      rw [h0] at hq
      cases hq
    rw [hpath, List.head?_append_of_ne_nil _ hne, hq]

/-- Witness for C4 (amended): a concrete right/down step from the
just-created element keeps the first point `[0,0]`. -/
theorem C4_witness :
    ((100 : ℚ) ≤ 110 ∧ (100 : ℚ) ≤ 130 ∧
      (⟨100, 100, 0, 0, [(0, 0)]⟩ : FreedrawElement).path.head? = some (0, 0)) ∧
    (onElementCreationFreedraw ⟨100, 100, 0, 0, [(0, 0)]⟩
      (110, 130)).path.head? = some (0, 0) :=
  ⟨⟨by norm_num, by norm_num, rfl⟩,
    C4_freedrawFirstPoint.2 ⟨100, 100, 0, 0, [(0, 0)]⟩ (110, 130) (0, 0)
      (by norm_num) (by norm_num) rfl⟩

end Vacia

namespace Vacia

/-- The interaction-controller states (`USERMODE` from `@constants`). -/
inductive USERMODE
  | IDLE
  | CREATING
  | DRAGGING
  | RESIZING
  | ROTATING
deriving DecidableEq

/-- The element variant tags of the `CanvasElement` union. -/
inductive ElementType
  | shape
  | freedraw
  | text
deriving DecidableEq

/-- The part of a `CanvasElement` that `onWindowPointerUp` and the
WysiwygEditor callbacks read: identity, variant tag and text content. -/
structure SceneElement where
  id : ℕ
  type : ElementType
  text : String
deriving DecidableEq

/-- The application state read and written by `onWindowPointerUp` and the
WysiwygEditor `onSubmit` callback: the usermode, the element being
edited, the element collection and selection of the element layer, and the pointer
fields consulted by the handler. -/
structure AppModel where
  usermode : USERMODE
  editingElement : Option SceneElement
  elements : List SceneElement
  selectedIds : List ℕ
  pointerActive : Bool
  dragOccurred : Bool
  hitElement : Option SceneElement
deriving DecidableEq

/-- Modelled from the spec: `ElementLayer.deleteElement` (in
`@core/elementLayer`, not under `src/`) removes the element from the
ordered collection. -/
def deleteElement (elements : List SceneElement) (e : SceneElement) :
    List SceneElement :=
  elements.filter (fun el => el.id != e.id)

/-- Modelled from the spec: `ElementLayer.mutateElement` applies a partial
patch to an existing element in place; here the `{ text }` patch sent by
the onSubmit callback of the WysiwygEditor. -/
def mutateElementText (elements : List SceneElement) (e : SceneElement)
    (text : String) : List SceneElement :=
  elements.map (fun el => if el.id = e.id then { el with text := text } else el)

/-- Handler `onWindowPointerUp` from `App.tsx`: with no active pointer the handler
returns unchanged; otherwise `newUserMode` starts as `IDLE`; the
`CREATING` case keeps `CREATING` for text elements (the WysiwygEditor
decides when creation ends) and deletes negligible non-text elements; the
`DRAGGING` case collapses the selection to the element under the cursor
when no drag occurred; finally the pointer is destroyed and the usermode
set.  `isElementNegligible` (in `@core/elements/miscellaneous`, not under
`src/`) is kept abstract as a boolean predicate parameter. -/
def onWindowPointerUp (isElementNegligible : SceneElement → Bool)
    (s : AppModel) : AppModel :=
  if s.pointerActive = false then s
  else
    match s.usermode, s.editingElement with
    | .CREATING, some element =>
      if element.type = .text then
        { s with usermode := .CREATING, pointerActive := false }
      else if isElementNegligible element then
        { s with
          usermode := .IDLE
          elements := deleteElement s.elements element
          editingElement := none
          pointerActive := false }
      else
        { s with usermode := .IDLE, pointerActive := false }
    | .CREATING, none =>
      -- unreachable in the source (`this.editingElement!` non-null assertion)
      { s with usermode := .IDLE, pointerActive := false }
    | .DRAGGING, _ =>
      if s.dragOccurred = false then
        { s with
          usermode := .IDLE
          selectedIds := (match s.hitElement with
            | some e => [e.id]
            | none => [])
          pointerActive := false }
      else { s with usermode := .IDLE, pointerActive := false }
    | _, _ => { s with usermode := .IDLE, pointerActive := false }

/-- The `onSubmit` callback handed to the WysiwygEditor overlay in
`App.tsx`: applies the final text to the element being edited, clears the
editing reference and returns the usermode to `IDLE`. -/
def onWysiwygSubmit (s : AppModel) (text : String) : AppModel :=
  match s.editingElement with
  | some e =>
    { s with
      elements := mutateElementText s.elements e text
      editingElement := none
      usermode := .IDLE }
  | none => { s with editingElement := none, usermode := .IDLE }

/-- C5: whenever `onWindowPointerUp` runs with an active pointer, the
resulting usermode is `IDLE` for every prior state, with exactly one
exception: a `CREATING` text element keeps usermode `CREATING`; and the
onSubmit callback of the text-edit overlay sets usermode to `IDLE`. -/
theorem C5_pointerUpUsermode :
    (∀ (isElementNegligible : SceneElement → Bool) (s : AppModel),
      s.pointerActive = true →
      (s.usermode = .CREATING → s.editingElement.isSome) →
      (onWindowPointerUp isElementNegligible s).usermode =
        if s.usermode = .CREATING ∧
            s.editingElement.map SceneElement.type = some .text
        then .CREATING else .IDLE) ∧
    (∀ (s : AppModel) (text : String), (onWysiwygSubmit s text).usermode = .IDLE) := by
  constructor
  · rintro f ⟨um, ee, els, sel, pa, dr, hel⟩ hp he
    simp only at hp he
    subst hp
    cases um <;> rcases ee with _ | ⟨eid, et, etx⟩ <;>
      first
      | (exfalso; simpa using he rfl)
      | (cases et <;>
          simp [onWindowPointerUp, apply_ite AppModel.usermode])
      | simp [onWindowPointerUp, apply_ite AppModel.usermode]
  · rintro ⟨um, ee, els, sel, pa, dr, hel⟩ text
    rcases ee with _ | e <;> simp [onWysiwygSubmit]

/-- Witness for C5: pointer-up during creation of a concrete text element
leaves usermode `CREATING`. -/
theorem C5_witness :
    ((⟨.CREATING, some ⟨1, .text, "hi"⟩, [⟨1, .text, "hi"⟩], [1], true, true, none⟩ :
        AppModel).pointerActive = true) ∧
    (onWindowPointerUp (fun _ => true)
      ⟨.CREATING, some ⟨1, .text, "hi"⟩, [⟨1, .text, "hi"⟩], [1], true, true, none⟩).usermode =
      .CREATING :=
  ⟨rfl, by
    have h := C5_pointerUpUsermode.1 (fun _ => true)
      ⟨.CREATING, some ⟨1, .text, "hi"⟩, [⟨1, .text, "hi"⟩], [1], true, true, none⟩
      rfl (fun _ => rfl)
    simpa using h⟩

/-- C9: on pointer-up in `CREATING` with a non-text element being
created, the element is deleted from the element layer (and the editing
reference cleared) exactly when `isElementNegligible` holds for it; a
non-negligible non-text element is kept. -/
theorem C9_negligibleDeletedOnPointerUp
    (isElementNegligible : SceneElement → Bool) (s : AppModel) (e : SceneElement)
    (hp : s.pointerActive = true) (hu : s.usermode = .CREATING)
    (he : s.editingElement = some e) (ht : e.type ≠ .text) :
    (isElementNegligible e = true →
      (onWindowPointerUp isElementNegligible s).elements = deleteElement s.elements e ∧
      (onWindowPointerUp isElementNegligible s).editingElement = none) ∧
    (isElementNegligible e = false →
      (onWindowPointerUp isElementNegligible s).elements = s.elements ∧
      (onWindowPointerUp isElementNegligible s).editingElement = some e) := by
  obtain ⟨um, ee, els, sel, pa, dr, hel⟩ := s
  simp only at hp hu he
  subst hp hu he
  constructor <;> intro hneg <;>
    simp [onWindowPointerUp, ht, hneg]

/-- Witness for C9: pointer-up during creation of a concrete negligible
shape element deletes it from the layer. -/
theorem C9_witness :
    ((⟨.CREATING, some ⟨2, .shape, ""⟩, [⟨2, .shape, ""⟩], [2], true, false, none⟩ :
        AppModel).pointerActive = true ∧
      (⟨.CREATING, some ⟨2, .shape, ""⟩, [⟨2, .shape, ""⟩], [2], true, false, none⟩ :
        AppModel).usermode = .CREATING ∧
      (⟨2, .shape, ""⟩ : SceneElement).type ≠ .text ∧
      (fun _ : SceneElement => true) ⟨2, .shape, ""⟩ = true) ∧
    (onWindowPointerUp (fun _ => true)
      ⟨.CREATING, some ⟨2, .shape, ""⟩, [⟨2, .shape, ""⟩], [2], true, false, none⟩).elements =
      deleteElement [⟨2, .shape, ""⟩] ⟨2, .shape, ""⟩ :=
  ⟨⟨rfl, rfl, by simp, rfl⟩,
    ((C9_negligibleDeletedOnPointerUp (fun _ => true)
      ⟨.CREATING, some ⟨2, .shape, ""⟩, [⟨2, .shape, ""⟩], [2], true, false, none⟩
      ⟨2, .shape, ""⟩ rfl rfl rfl (by simp)).1 rfl).1⟩

end Vacia
